import Mathlib

/-!
Shallow embedding of the aragon-cli `dao install` command
(src/unnamed/part_000, the install command module) and the
`dao token new` command
(src/packages/aragon-cli/src/commands/dao_cmds/token_cmds/new.js).

External collaborators (web3 calls, ENS resolution, ABI hashing and
decoding, transaction execution) are modelled as explicit parameters:
their results appear as fields of an environment record or as function
arguments, never as hard-coded behaviour.  The `listr` task runner is
not part of this repository; it is modelled from the specification of
the task pipeline runner.
-/

namespace AragonCli

/-- JavaScript `String.prototype.toLowerCase` restricted to the ASCII
strings (addresses, hex data) this code applies it to. -/
def jsToLower (s : String) : String := String.mk (s.data.map Char.toLower)

/-- `addressesEqual` from the install command:
`(a, b) => a.toLowerCase() === b.toLowerCase()`. -/
def addressesEqual (a b : String) : Bool := jsToLower a == jsToLower b

/-- Modelled from the spec: the `ZERO_ADDRESS` constant imported from
`util.js` (not under src/); the spec calls it the zero address used for
the "unset" base-contract check. -/
def ZERO_ADDRESS : String := "0x0000000000000000000000000000000000000000"

/-- Modelled from the spec: the `ANY_ENTITY` constant imported from
`util.js` (not under src/); the entity granted universal access when
permissions are opened. -/
def ANY_ENTITY : String := "0xffffffffffffffffffffffffffffffffffffffff"

/-- Modelled from the spec: the `NO_MANAGER` constant imported from
`util.js` (not under src/); the manager used when none is assigned. -/
def NO_MANAGER : String := "0x0000000000000000000000000000000000000000"

/-- JavaScript truthiness of a possibly-undefined string value:
`undefined` and the empty string are falsy. -/
def jsTruthy : Option String → Bool
  | none => false
  | some s => !(s == "")

/-- JavaScript `a || b` on possibly-undefined string values. -/
def jsOr (a b : Option String) : Option String := if jsTruthy a then a else b

/-- Outcome of one pipeline step action: mutate the context, skip
(context unchanged), or throw an error. -/
inductive Outcome (σ : Type) where
  | done (s : σ)
  | skip (reason : String)
  | err (e : String)
deriving DecidableEq

/-- Modelled from the spec: a pipeline step of the task pipeline runner
(the `listr` dependency, not under src/): a title, an enabled predicate
over the context (defaulting to always-true), and an action that
receives the context and may mutate it, skip, or throw. -/
structure Step (σ : Type) where
  title : String
  enabled : σ → Bool
  action : σ → Outcome σ

/-- Modelled from the spec: the task pipeline runner of the `listr`
dependency (not under src/).  Steps run strictly in declaration order
against a threaded context; a disabled step is passed over, a skipped
step leaves the context unchanged, and a throwing step aborts the run
with that error.  Returns the titles of the steps whose actions ran,
in order, together with the final context or the propagated error. -/
def runT {σ : Type} : List (Step σ) → σ → List String × Except String σ
  | [], s => ([], Except.ok s)
  | st :: rest, s =>
    if st.enabled s then
      match st.action s with
      | Outcome.done s1 =>
        let r := runT rest s1
        (st.title :: r.1, r.2)
      | Outcome.skip _ =>
        let r := runT rest s
        (st.title :: r.1, r.2)
      | Outcome.err e => ([st.title], Except.error e)
    else
      runT rest s

theorem runT_nil {σ : Type} (s : σ) : runT ([] : List (Step σ)) s = ([], Except.ok s) := rfl

theorem runT_append {σ : Type} (pre post : List (Step σ)) (s : σ) :
    runT (pre ++ post) s =
      match runT pre s with
      | (t, Except.ok s1) => (t ++ (runT post s1).1, (runT post s1).2)
      | (t, Except.error e) => (t, Except.error e) := by
  induction pre generalizing s with
  | nil => simp [runT]
  | cons st rest ih =>
    simp only [List.cons_append, runT]
    by_cases h : st.enabled s
    · simp only [h, if_true]
      cases ha : st.action s with
      | done s1 => simp [ih s1]; cases hr : runT rest s1 with
        | mk t r => cases r <;> simp_all
      | skip r0 => simp [ih s]; cases hr : runT rest s with
        | mk t r => cases r <;> simp_all
      | err e => simp
    · simp only [h, if_false]
      exact ih s

theorem runT_titles_sublist {σ : Type} (steps : List (Step σ)) (s : σ) :
    ((runT steps s).1).Sublist (steps.map Step.title) := by
  induction steps generalizing s with
  | nil => simp [runT]
  | cons st rest ih =>
    simp only [runT, List.map_cons]
    by_cases h : st.enabled s
    · simp only [h, if_true]
      cases ha : st.action s with
      | done s1 => exact List.Sublist.cons₂ _ (ih s1)
      | skip r0 => exact List.Sublist.cons₂ _ (ih s)
      | err e => exact List.Sublist.cons₂ _ (List.nil_sublist _)
    · simp only [h, if_false]
      exact List.Sublist.cons _ (ih s)

/-- A role declared by the resolved repo (from its arapp.json); only its
`bytes` identifier is consumed by the install command. -/
structure Role where
  bytes : String
deriving DecidableEq

/-- Repo metadata produced by the Fetching step (`getRepoTask`): the
fields of `ctx.repo` the install command reads.  `roles` is an `Option`
because arapp.json may omit the role list (JS `undefined`). -/
structure Repo where
  appId : String
  contractAddress : String
  roles : Option (List Role)
deriving DecidableEq

/-- A transaction receipt log entry: indexed topics, the emitting
contract address, and the raw data payload. -/
structure Log where
  topics : List String
  address : String
  data : String
deriving DecidableEq

/-- A transaction receipt: the install command only reads its logs. -/
structure Receipt where
  logs : List Log
deriving DecidableEq

/-- The shared pipeline context accumulated by the install pipeline. -/
structure InstallCtx where
  repo : Option Repo
  receipt : Option Receipt
  appAddress : Option String
  notInitialized : Bool
deriving DecidableEq

/-- The error message thrown by the Checking-installed-version step when
the registered base differs from the resolved repo version. -/
def mismatchMsg (apmRepo currentBase : String) : String :=
  "Cannot install app on a different version. Currently installed version for "
    ++ apmRepo ++ " in the DAO is " ++ currentBase
    ++ "\n Please upgrade using \x27dao upgrade\x27 first or install a different version."

/-- The Checking-installed-version step body: `currentBase` is the
result of the external `kernel.getApp(basesNamespace, appId)` call and
`contractAddress` is `ctx.repo.contractAddress`.  The step skips when
the base is strictly equal to `ZERO_ADDRESS`, throws when it is set and
differs case-insensitively from the repo contract address, and
otherwise completes silently. -/
def checkInstalledVersion (apmRepo currentBase contractAddress : String) : Outcome Unit :=
  if currentBase == ZERO_ADDRESS then
    Outcome.skip ("Installing the first instance of " ++ apmRepo ++ " in DAO")
  else if !(addressesEqual currentBase contractAddress) then
    Outcome.err (mismatchMsg apmRepo currentBase)
  else
    Outcome.done ()

/-- The predicate the Fetching-deployed-app step applies to each receipt
log: first topic equal to the NewAppProxy signature hash and emitting
address equal (case-insensitively) to the DAO address. -/
def newAppProxyLogMatch (logTopic dao : String) (l : Log) : Bool :=
  (l.topics.head? == some logTopic) && addressesEqual dao l.address

/-- `ctx.receipt.logs.find(...)` in the Fetching-deployed-app step:
the first log matching the NewAppProxy topic and DAO address. -/
def findDeployLog (logTopic dao : String) (logs : List Log) : Option Log :=
  logs.find? (newAppProxyLogMatch logTopic dao)

/-- The guidance error thrown by the Set-permissions step when the repo
declares no roles. -/
def noRolesMsg : String :=
  "You have no roles defined in your arapp.json.\nThis is required for your app to be properly installed.\nSee https://hack.aragon.org/docs/cli-global-confg#the-arappjson-file for more information."

/-- One `createPermission` transaction parameter tuple
`[ANY_ENTITY, appAddress, role.bytes, NO_MANAGER]`. -/
structure PermTx where
  entity : String
  app : String
  role : String
  manager : String
deriving DecidableEq

/-- The Set-permissions step body: throws the guidance error when the
role list is missing or empty, otherwise produces one createPermission
transaction per declared role, granting `ANY_ENTITY` on the role's
bytes identifier for the app address with `NO_MANAGER` as manager. -/
def setPermissionsTxs (roles : Option (List Role)) (appAddress : String) :
    Except String (List PermTx) :=
  match roles with
  | none => Except.error noRolesMsg
  | some rs =>
    if rs.length == 0 then Except.error noRolesMsg
    else Except.ok (rs.map fun role =>
      { entity := ANY_ENTITY, app := appAddress, role := role.bytes, manager := NO_MANAGER })

/-- The `enabled` predicate of the Set-permissions step:
`ctx => setPermissions === 'open' && ctx.appAddress`. -/
def setPermissionsEnabled (setPermissions : Option String) (appAddress : Option String) : Bool :=
  (setPermissions == some "open") && jsTruthy appAddress

/-- Results of the external collaborators consumed by one run of the
install pipeline: the resolved repo, the `kernel.getApp` answer, the
deploy transaction receipt, the encoded init payload, the NewAppProxy
signature hash (`web3.utils.sha3`), the `web3.eth.abi.decodeLog` proxy
field, and the command options. -/
structure InstallEnv where
  apmRepo : String
  dao : String
  fetchedRepo : Repo
  currentBase : String
  deployReceipt : Receipt
  initPayload : String
  logTopic : String
  decodeProxy : String → String
  setPermissions : Option String

/-- Step 1 of the install pipeline: fetch the repo and record it in the
context. -/
def fetchRepoStep (env : InstallEnv) : Step InstallCtx :=
  { title := "Fetching " ++ env.apmRepo
    enabled := fun _ => true
    action := fun ctx => Outcome.done { ctx with repo := some env.fetchedRepo } }

/-- Step 2 of the install pipeline: the Checking-installed-version body
lifted to the context (reading `ctx.repo.contractAddress`). -/
def checkInstalledVersionStep (env : InstallEnv) : Step InstallCtx :=
  { title := "Checking installed version"
    enabled := fun _ => true
    action := fun ctx =>
      match ctx.repo with
      | none => Outcome.err "TypeError: ctx.repo is undefined"
      | some repo =>
        match checkInstalledVersion env.apmRepo env.currentBase repo.contractAddress with
        | Outcome.done _ => Outcome.done ctx
        | Outcome.skip r => Outcome.skip r
        | Outcome.err e => Outcome.err e }

/-- Step 3 of the install pipeline: submit the newAppInstance
transaction (external `execTask`); records the receipt and flags an
uninitialized app when the encoded init payload is `0x`. -/
def deployAppInstanceStep (env : InstallEnv) : Step InstallCtx :=
  { title := "Deploying app instance"
    enabled := fun _ => true
    action := fun ctx =>
      Outcome.done { ctx with
        receipt := some env.deployReceipt
        notInitialized := ctx.notInitialized || (env.initPayload == "0x") } }

/-- Step 4 of the install pipeline: the Fetching-deployed-app body.
Finds the NewAppProxy log for the DAO in the receipt; skips with a
warning when it is absent, otherwise stores the decoded proxy address
in `ctx.appAddress`. -/
def fetchDeployedAppStep (env : InstallEnv) : Step InstallCtx :=
  { title := "Fetching deployed app"
    enabled := fun _ => true
    action := fun ctx =>
      match ctx.receipt with
      | none => Outcome.err "TypeError: ctx.receipt is undefined"
      | some receipt =>
        match findDeployLog env.logTopic env.dao receipt.logs with
        | none => Outcome.skip "App wasn\x27t deployed in transaction."
        | some l => Outcome.done { ctx with appAddress := some (env.decodeProxy l.data) } }

/-- Step 5 of the install pipeline: the Set-permissions step, enabled
only for `--set-permissions open` with a detected app address; its body
throws the guidance error or submits the per-role createPermission
transactions (external `execTask`, context unchanged). -/
def setPermissionsStep (env : InstallEnv) : Step InstallCtx :=
  { title := "Set permissions"
    enabled := fun ctx => setPermissionsEnabled env.setPermissions ctx.appAddress
    action := fun ctx =>
      match ctx.repo with
      | none => Outcome.err "TypeError: ctx.repo is undefined"
      | some repo =>
        match setPermissionsTxs repo.roles ((ctx.appAddress).getD "") with
        | Except.error e => Outcome.err e
        | Except.ok _ => Outcome.done ctx }

/-- The install pipeline: the five steps in declaration order. -/
def installSteps (env : InstallEnv) : List (Step InstallCtx) :=
  [fetchRepoStep env, checkInstalledVersionStep env, deployAppInstanceStep env,
   fetchDeployedAppStep env, setPermissionsStep env]

/-- The initial (empty) install pipeline context. -/
def initialInstallCtx : InstallCtx :=
  { repo := none, receipt := none, appAddress := none, notInitialized := false }

/-- The fixed mainnet MiniMeTokenFactory address constant. -/
def MAINNET_MINIME_TOKEN_FACTORY : String :=
  "0x909d05f384d0663ed4be59863815ab43b4f347ec"

/-- The fixed Rinkeby MiniMeTokenFactory address constant. -/
def RINKEBY_MINIME_TOKEN_FACTORY : String :=
  "0xad991658443c56b3dE2D7d7f5d8C68F339aEef29"

/-- The factory-address defaulting of the token-new task:
`if (chainId === 1) tokenFactoryAddress = tokenFactoryAddress || MAINNET...`
then the same for chain id 4 with the Rinkeby constant. -/
def defaultTokenFactory (chainId : Nat) (tokenFactoryAddress : Option String) : Option String :=
  let tfa1 := if chainId == 1
    then jsOr tokenFactoryAddress (some MAINNET_MINIME_TOKEN_FACTORY)
    else tokenFactoryAddress
  if chainId == 4 then jsOr tfa1 (some RINKEBY_MINIME_TOKEN_FACTORY) else tfa1

/-- The shared pipeline context accumulated by the token-new pipeline. -/
structure TokenCtx where
  factoryAddress : Option String
  factoryTxHash : Option String
  tokenAddress : Option String
  tokenTxHash : Option String
deriving DecidableEq

/-- One constructor argument of a contract deployment transaction. -/
inductive DeployArg where
  | address (a : Option String)
  | nat (n : Nat)
  | str (s : String)
  | flag (b : Bool)
deriving DecidableEq

/-- Results of the external collaborators consumed by one run of the
token-new pipeline: the chain id, the command arguments, the
`web3Utils.isAddress` validity test, and the contract addresses and
transaction hashes reported by each deployment receipt. -/
structure TokenEnv where
  chainId : Nat
  tokenName : String
  symbol : String
  decimalUnits : Nat
  transferEnabled : Bool
  tokenFactoryAddress : Option String
  isAddress : Option String → Bool
  factoryReceiptAddress : String
  factoryTxHash : String
  tokenReceiptAddress : String
  tokenTxHash : String

/-- The (possibly defaulted) factory address the token-new task computes
before building its pipeline. -/
def resolvedTokenFactory (env : TokenEnv) : Option String :=
  defaultTokenFactory env.chainId env.tokenFactoryAddress

/-- Step 1 of the token-new pipeline: deploy a MiniMeTokenFactory,
enabled only when the (possibly defaulted) factory address is not a
valid Ethereum address; the receipt's contract address and transaction
hash are recorded in the context. -/
def deployFactoryStep (env : TokenEnv) : Step TokenCtx :=
  { title := "Deploy the MiniMeTokenFactory contract"
    enabled := fun _ => !(env.isAddress (resolvedTokenFactory env))
    action := fun ctx =>
      Outcome.done { ctx with
        factoryAddress := some env.factoryReceiptAddress
        factoryTxHash := some env.factoryTxHash } }

/-- The MiniMeToken constructor arguments:
`[ctx.factoryAddress || tokenFactoryAddress, ZERO_ADDRESS, 0, tokenName,
decimalUnits, symbol, transferEnabled]`. -/
def miniMeConstructorArgs (env : TokenEnv) (ctx : TokenCtx) : List DeployArg :=
  [ DeployArg.address (jsOr ctx.factoryAddress (resolvedTokenFactory env)),
    DeployArg.address (some ZERO_ADDRESS),
    DeployArg.nat 0,
    DeployArg.str env.tokenName,
    DeployArg.nat env.decimalUnits,
    DeployArg.str env.symbol,
    DeployArg.flag env.transferEnabled ]

/-- Step 2 of the token-new pipeline: always deploy the MiniMeToken with
`miniMeConstructorArgs`; the receipt's contract address and transaction
hash are recorded in the context. -/
def deployTokenStep (env : TokenEnv) : Step TokenCtx :=
  { title := "Deploy the MiniMeToken contract"
    enabled := fun _ => true
    action := fun ctx =>
      Outcome.done { ctx with
        tokenAddress := some env.tokenReceiptAddress
        tokenTxHash := some env.tokenTxHash } }

/-- The token-new pipeline: its two steps in declaration order. -/
def tokenNewSteps (env : TokenEnv) : List (Step TokenCtx) :=
  [deployFactoryStep env, deployTokenStep env]

/-- A hexadecimal digit as matched by the character class
`[a-fA-F0-9]` of the dao-address regex. -/
def isHexDigitChar (c : Char) : Bool :=
  c.isDigit || (97 ≤ c.toNat && c.toNat ≤ 102) || (65 ≤ c.toNat && c.toNat ≤ 70)

/-- Whether the regex `0x[a-fA-F0-9]{40}` matches at the head of the
character list. -/
def ethAddrMatchAt : List Char → Bool
  | '0' :: 'x' :: rest => decide (40 ≤ rest.length) && (rest.take 40).all isHexDigitChar
  | _ => false

/-- The unanchored test `/0x[a-fA-F0-9]{40}/.test(dao)`: the regex
matches at some position of the string. -/
def containsEthAddress (s : String) : Bool :=
  (List.range s.data.length).any fun i => ethAddrMatchAt (s.data.drop i)

/-- The dao-argument resolution of the install task: a dao string
passing the address-regex test is used as-is, anything else goes
through the external `resolveEnsDomain` collaborator. -/
def resolveDaoAddress (resolveEns : String → String) (dao : String) : String :=
  if containsEthAddress dao then dao else resolveEns dao

set_option maxRecDepth 8192

/-- C1: in every pipeline built over the runner (as the install and
token-new tasks build theirs), step actions run strictly in declaration
order (the executed titles form an in-order sublist of the declared
titles); if the step after a successful prefix throws, no later step
runs (the trace ends at that step's title) and the run rejects with
exactly that error; and a skipped step leaves the pipeline context
unchanged (the remaining steps run from the same context). -/
theorem c1_pipeline_order_failure_skip :
    (∀ (σ : Type) (steps : List (Step σ)) (s : σ),
      ((runT steps s).1).Sublist (steps.map Step.title))
    ∧ (∀ (σ : Type) (pre post : List (Step σ)) (st : Step σ) (s s1 : σ)
        (t : List String) (e : String),
        runT pre s = (t, Except.ok s1) → st.enabled s1 = true →
        st.action s1 = Outcome.err e →
        runT (pre ++ st :: post) s = (t ++ [st.title], Except.error e))
    ∧ (∀ (σ : Type) (pre post : List (Step σ)) (st : Step σ) (s s1 : σ)
        (t : List String) (r : String),
        runT pre s = (t, Except.ok s1) → st.enabled s1 = true →
        st.action s1 = Outcome.skip r →
        runT (pre ++ st :: post) s
          = (t ++ st.title :: (runT post s1).1, (runT post s1).2)) := by
  refine ⟨fun σ steps s => runT_titles_sublist steps s, ?_, ?_⟩
  · intro σ pre post st s s1 t e h1 h2 h3
    have h := runT_append pre (st :: post) s
    rw [h1] at h
    simp only at h
    rw [h]
    simp [runT, h2, h3]
  · intro σ pre post st s s1 t r h1 h2 h3
    have h := runT_append pre (st :: post) s
    rw [h1] at h
    simp only at h
    rw [h]
    simp [runT, h2, h3]

/-- A two-successor demo step used to witness the runner semantics. -/
def demoOkStep : Step Nat :=
  { title := "ok-step", enabled := fun _ => true, action := fun n => Outcome.done (n + 1) }

/-- A throwing demo step used to witness the runner semantics. -/
def demoFailStep : Step Nat :=
  { title := "fail-step", enabled := fun _ => true, action := fun _ => Outcome.err "boom" }

/-- A demo step that must never run after a failure. -/
def demoAfterStep : Step Nat :=
  { title := "after-step", enabled := fun _ => true, action := fun n => Outcome.done (n + 10) }

/-- Witness for C1: a concrete three-step pipeline whose middle step
throws executes only its first two steps and rejects with that error. -/
theorem c1_pipeline_order_failure_skip_witness :
    runT ([demoOkStep] ++ demoFailStep :: [demoAfterStep]) 0
      = (["ok-step", "fail-step"], Except.error "boom") :=
  c1_pipeline_order_failure_skip.2.1 Nat [demoOkStep] [demoAfterStep] demoFailStep
    0 1 ["ok-step"] "boom" rfl rfl rfl

/-- C3: when the resolved repo declares no roles (missing or empty role
list), the Set-permissions body throws the guidance error and produces
no createPermission transaction. -/
theorem c3_no_roles_guidance_error (roles : Option (List Role)) (appAddress : String)
    (h : roles = none ∨ roles = some []) :
    setPermissionsTxs roles appAddress = Except.error noRolesMsg := by
  rcases h with h | h <;> subst h <;> rfl

/-- Witness for C3: a repo with a missing role list fails with the
guidance error. -/
theorem c3_no_roles_guidance_error_witness :
    setPermissionsTxs none "0xaaaaaaaaaaaaaaaaaaaaaaaaaaaaaaaaaaaaaaaa" = Except.error noRolesMsg :=
  c3_no_roles_guidance_error none "0xaaaaaaaaaaaaaaaaaaaaaaaaaaaaaaaaaaaaaaaa" (Or.inl rfl)

/-- C4: the Set-permissions step is enabled exactly when the
set-permissions option equals "open" and the context holds a decoded
(non-empty) proxy address. -/
theorem c4_set_permissions_enabled_iff (setPermissions appAddress : Option String) :
    setPermissionsEnabled setPermissions appAddress = true ↔
      (setPermissions = some "open" ∧ ∃ a, appAddress = some a ∧ a ≠ "") := by
  cases appAddress <;> simp [setPermissionsEnabled, jsTruthy]

/-- Witness for C4: with `--set-permissions open` and a decoded proxy
address the step is enabled. -/
theorem c4_set_permissions_enabled_iff_witness :
    setPermissionsEnabled (some "open") (some "0xcccccccccccccccccccccccccccccccccccccccc") = true :=
  (c4_set_permissions_enabled_iff (some "open")
    (some "0xcccccccccccccccccccccccccccccccccccccccc")).mpr
    ⟨rfl, "0xcccccccccccccccccccccccccccccccccccccccc", rfl, by decide⟩

/-- C6: with a non-empty role list the Set-permissions body produces
exactly one createPermission transaction per declared role, each
granting ANY_ENTITY on that role's bytes identifier for the deployed
app address with NO_MANAGER as manager. -/
theorem c6_one_permission_per_role (rs : List Role) (appAddress : String) (h : rs ≠ []) :
    ∃ txs, setPermissionsTxs (some rs) appAddress = Except.ok txs
      ∧ txs.length = rs.length
      ∧ ∀ i : Nat, txs.get? i = (rs.get? i).map fun role =>
          { entity := ANY_ENTITY, app := appAddress, role := role.bytes, manager := NO_MANAGER } := by
  refine ⟨rs.map fun role =>
    { entity := ANY_ENTITY, app := appAddress, role := role.bytes, manager := NO_MANAGER },
    ?_, by simp, fun i => by simp⟩
  have hlen : (rs.length == 0) = false := by
    simp [List.length_eq_zero, h]
  simp [setPermissionsTxs, hlen]

/-- Witness for C6: two declared roles yield two permission
transactions, one per role in order. -/
theorem c6_one_permission_per_role_witness :
    ∃ txs, setPermissionsTxs (some [{ bytes := "0x01" }, { bytes := "0x02" }])
        "0xdddddddddddddddddddddddddddddddddddddddd" = Except.ok txs
      ∧ txs.length = ([{ bytes := "0x01" }, { bytes := "0x02" }] : List Role).length
      ∧ ∀ i : Nat, txs.get? i
          = (([{ bytes := "0x01" }, { bytes := "0x02" }] : List Role).get? i).map fun role =>
            { entity := ANY_ENTITY, app := "0xdddddddddddddddddddddddddddddddddddddddd",
              role := role.bytes, manager := NO_MANAGER } :=
  c6_one_permission_per_role [{ bytes := "0x01" }, { bytes := "0x02" }]
    "0xdddddddddddddddddddddddddddddddddddddddd" (List.cons_ne_nil _ _)

/-- The Checking-installed-version step errors exactly on a base that
is set (strictly non-zero) and differs case-insensitively from the
repo's contract address. -/
theorem checkInstalled_err_iff (apmRepo cb ca : String) :
    (∃ m, checkInstalledVersion apmRepo cb ca = Outcome.err m) ↔
      (¬ cb = ZERO_ADDRESS ∧ addressesEqual cb ca = false) := by
  by_cases h0 : cb == ZERO_ADDRESS
  · have h0p : cb = ZERO_ADDRESS := by simpa using h0
    simp [checkInstalledVersion, h0, h0p]
  · have h0p : ¬ cb = ZERO_ADDRESS := by simpa using h0
    by_cases he : addressesEqual cb ca
    · simp [checkInstalledVersion, h0, he, h0p]
    · have heq : addressesEqual cb ca = false := by simpa using he
      simp [checkInstalledVersion, h0, heq, h0p]

/-- C2 counterexample: at a concrete mismatching pair of addresses the
Checking-installed-version step does raise the version-mismatch error,
but the raised message does not contain the resolved repo's contract
address — refuting the claim that the error names both addresses. -/
theorem c2_error_omits_repo_contract_address :
    checkInstalledVersion "voting.aragonpm.eth"
        "0xaaaaaaaaaaaaaaaaaaaaaaaaaaaaaaaaaaaaaaaa"
        "0xbbbbbbbbbbbbbbbbbbbbbbbbbbbbbbbbbbbbbbbb"
      = Outcome.err
          (mismatchMsg "voting.aragonpm.eth" "0xaaaaaaaaaaaaaaaaaaaaaaaaaaaaaaaaaaaaaaaa")
    ∧ ¬ (("0xbbbbbbbbbbbbbbbbbbbbbbbbbbbbbbbbbbbbbbbb").data <:+:
        (mismatchMsg "voting.aragonpm.eth" "0xaaaaaaaaaaaaaaaaaaaaaaaaaaaaaaaaaaaaaaaa").data) :=
  ⟨rfl, by decide⟩

/-- C2 (amended): the step raises an error iff the registered base is
not (verbatim) the zero address and differs case-insensitively from the
repo's contract address; a zero base skips; an equal base raises
nothing; and the raised error is the mismatch message, which names the
app's repo name and the currently installed base address. -/
theorem c2_check_installed_version (apmRepo currentBase contractAddress : String) :
    ((∃ m, checkInstalledVersion apmRepo currentBase contractAddress = Outcome.err m) ↔
      (currentBase ≠ ZERO_ADDRESS ∧ addressesEqual currentBase contractAddress = false))
    ∧ (currentBase = ZERO_ADDRESS →
        checkInstalledVersion apmRepo currentBase contractAddress
          = Outcome.skip ("Installing the first instance of " ++ apmRepo ++ " in DAO"))
    ∧ (addressesEqual currentBase contractAddress = true →
        ∀ m, checkInstalledVersion apmRepo currentBase contractAddress ≠ Outcome.err m)
    ∧ (∀ m, checkInstalledVersion apmRepo currentBase contractAddress = Outcome.err m →
        m = mismatchMsg apmRepo currentBase
        ∧ currentBase.data <:+: m.data ∧ apmRepo.data <:+: m.data) := by
  have hcb : currentBase.data <:+: (mismatchMsg apmRepo currentBase).data := by
    refine ⟨("Cannot install app on a different version. Currently installed version for "
      ++ apmRepo ++ " in the DAO is ").data,
      ("\n Please upgrade using \x27dao upgrade\x27 first or install a different version.").data, ?_⟩
    simp [mismatchMsg, String.data_append]
  have hrepo : apmRepo.data <:+: (mismatchMsg apmRepo currentBase).data := by
    refine ⟨("Cannot install app on a different version. Currently installed version for ").data,
      (" in the DAO is " ++ currentBase
        ++ "\n Please upgrade using \x27dao upgrade\x27 first or install a different version.").data, ?_⟩
    simp [mismatchMsg, String.data_append]
  refine ⟨checkInstalled_err_iff apmRepo currentBase contractAddress,
    fun hz => by simp [checkInstalledVersion, hz], fun he m hm => ?_, fun m hm => ?_⟩
  · rcases (checkInstalled_err_iff apmRepo currentBase contractAddress).1 ⟨m, hm⟩ with ⟨_, hef⟩
    rw [he] at hef
    exact absurd hef (by simp)
  · rcases (checkInstalled_err_iff apmRepo currentBase contractAddress).1 ⟨m, hm⟩ with ⟨hz, hef⟩
    have h0 : ¬ (currentBase == ZERO_ADDRESS) = true := by simpa using hz
    have : m = mismatchMsg apmRepo currentBase := by
      simpa [checkInstalledVersion, h0, hef] using hm.symm
    exact ⟨this, this ▸ hcb, this ▸ hrepo⟩

/-- Witness for C2 (amended): a zero registered base makes the step
skip, and an equal registered base raises no error. -/
theorem c2_check_installed_version_witness :
    checkInstalledVersion "voting.aragonpm.eth" ZERO_ADDRESS
        "0xbbbbbbbbbbbbbbbbbbbbbbbbbbbbbbbbbbbbbbbb"
      = Outcome.skip ("Installing the first instance of " ++ "voting.aragonpm.eth" ++ " in DAO") :=
  (c2_check_installed_version "voting.aragonpm.eth" ZERO_ADDRESS
    "0xbbbbbbbbbbbbbbbbbbbbbbbbbbbbbbbbbbbbbbbb").2.1 rfl

/-- C5: with a receipt in the context, the Fetching-deployed-app step
stores exactly the proxy decoded from the first matching NewAppProxy
log when one exists; it skips with the warning when no log matches; no
log matches exactly when every receipt log fails the match predicate;
and a log matches exactly when its first topic is the NewAppProxy
signature hash and its emitting address equals the DAO address. -/
theorem c5_fetch_deployed_app (env : InstallEnv) (ctx : InstallCtx) (receipt : Receipt)
    (h : ctx.receipt = some receipt) :
    (∀ l, findDeployLog env.logTopic env.dao receipt.logs = some l →
        (fetchDeployedAppStep env).action ctx
          = Outcome.done { ctx with appAddress := some (env.decodeProxy l.data) })
    ∧ (findDeployLog env.logTopic env.dao receipt.logs = none →
        (fetchDeployedAppStep env).action ctx
          = Outcome.skip "App wasn\x27t deployed in transaction.")
    ∧ (findDeployLog env.logTopic env.dao receipt.logs = none ↔
        ∀ l ∈ receipt.logs, ¬ (newAppProxyLogMatch env.logTopic env.dao l = true))
    ∧ (∀ l : Log, newAppProxyLogMatch env.logTopic env.dao l = true ↔
        (l.topics.head? = some env.logTopic ∧ addressesEqual env.dao l.address = true)) := by
  refine ⟨fun l hl => ?_, fun hn => ?_, ?_, fun l => ?_⟩
  · simp [fetchDeployedAppStep, h, hl]
  · simp [fetchDeployedAppStep, h, hn]
  · exact List.find?_eq_none
  · simp [newAppProxyLogMatch]

/-- The NewAppProxy log used to witness the decode step. -/
def demoDeployLog : Log :=
  { topics := ["0xproxytopichash"],
    address := "0xDA0DA0DA0DA0DA0DA0DA0DA0DA0DA0DA0DA0DA00",
    data := "0xlogdata" }

/-- An install environment used to witness the decode step: the DAO
address differs from the log's emitting address only by letter case. -/
def demoInstallEnv : InstallEnv :=
  { apmRepo := "voting.aragonpm.eth",
    dao := "0xda0da0da0da0da0da0da0da0da0da0da0da0da00",
    fetchedRepo := { appId := "0xappid", contractAddress := "0xcccccccccccccccccccccccccccccccccccccccc",
                     roles := some [{ bytes := "0x01" }] },
    currentBase := "0x0000000000000000000000000000000000000000",
    deployReceipt := { logs := [demoDeployLog] },
    initPayload := "0xdeadbeef",
    logTopic := "0xproxytopichash",
    decodeProxy := fun d => d ++ ":proxy",
    setPermissions := some "open" }

/-- Witness for C5: on a context holding a receipt with one matching
log, the step stores the decoded proxy of that log. -/
theorem c5_fetch_deployed_app_witness :
    (fetchDeployedAppStep demoInstallEnv).action
        { repo := none, receipt := some { logs := [demoDeployLog] },
          appAddress := none, notInitialized := false }
      = Outcome.done
          { repo := none, receipt := some { logs := [demoDeployLog] },
            appAddress := some ("0xlogdata" ++ ":proxy"), notInitialized := false } :=
  (c5_fetch_deployed_app demoInstallEnv
    { repo := none, receipt := some { logs := [demoDeployLog] },
      appAddress := none, notInitialized := false }
    { logs := [demoDeployLog] } rfl).1 demoDeployLog (by decide)

/-- C7: with no factory address supplied, chain id 1 defaults to the
fixed mainnet factory constant and chain id 4 to the fixed Rinkeby
constant; a supplied (non-empty) address is never overridden. -/
theorem c7_default_token_factory :
    defaultTokenFactory 1 none = some MAINNET_MINIME_TOKEN_FACTORY
    ∧ defaultTokenFactory 4 none = some RINKEBY_MINIME_TOKEN_FACTORY
    ∧ ∀ (chainId : Nat) (s : String), s ≠ "" →
        defaultTokenFactory chainId (some s) = some s := by
  refine ⟨rfl, rfl, fun chainId s hs => ?_⟩
  have ht : jsTruthy (some s) = true := by simp [jsTruthy, hs]
  simp only [defaultTokenFactory]
  split_ifs <;> simp [jsOr, ht]

/-- Witness for C7: a supplied factory address survives the defaulting
on an arbitrary chain id. -/
theorem c7_default_token_factory_witness :
    defaultTokenFactory 4 (some "0xeeeeeeeeeeeeeeeeeeeeeeeeeeeeeeeeeeeeeeee")
      = some "0xeeeeeeeeeeeeeeeeeeeeeeeeeeeeeeeeeeeeeeee" :=
  c7_default_token_factory.2.2 4 "0xeeeeeeeeeeeeeeeeeeeeeeeeeeeeeeeeeeeeeeee" (by decide)

/-- C8: the MiniMeTokenFactory step is enabled exactly when the
(possibly defaulted) factory address is not a valid Ethereum address,
and it records the receipt's deployed factory address in the context;
the always-enabled MiniMeToken deployment takes the context's
just-deployed factory address when present, otherwise the supplied
(possibly defaulted) one, together with the token name, decimal units,
symbol and transfer-enabled flag. -/
theorem c8_token_pipeline_factory_selection (env : TokenEnv) (ctx : TokenCtx) :
    ((deployFactoryStep env).enabled ctx = !(env.isAddress (resolvedTokenFactory env)))
    ∧ ((deployFactoryStep env).action ctx
        = Outcome.done { ctx with factoryAddress := some env.factoryReceiptAddress,
                                  factoryTxHash := some env.factoryTxHash })
    ∧ (∀ f, f ≠ "" →
        miniMeConstructorArgs env { ctx with factoryAddress := some f }
          = [DeployArg.address (some f), DeployArg.address (some ZERO_ADDRESS),
             DeployArg.nat 0, DeployArg.str env.tokenName, DeployArg.nat env.decimalUnits,
             DeployArg.str env.symbol, DeployArg.flag env.transferEnabled])
    ∧ (miniMeConstructorArgs env { ctx with factoryAddress := none }
        = [DeployArg.address (resolvedTokenFactory env), DeployArg.address (some ZERO_ADDRESS),
           DeployArg.nat 0, DeployArg.str env.tokenName, DeployArg.nat env.decimalUnits,
           DeployArg.str env.symbol, DeployArg.flag env.transferEnabled])
    ∧ ((deployTokenStep env).enabled ctx = true)
    ∧ (tokenNewSteps env = [deployFactoryStep env, deployTokenStep env]) := by
  refine ⟨rfl, rfl, fun f hf => ?_, ?_, rfl, rfl⟩
  · have ht : jsTruthy (some f) = true := by simp [jsTruthy, hf]
    simp [miniMeConstructorArgs, jsOr, ht]
  · simp [miniMeConstructorArgs, jsOr, jsTruthy]

/-- A token-new environment used to witness the factory selection. -/
def demoTokenEnv : TokenEnv :=
  { chainId := 4,
    tokenName := "Demo Token",
    symbol := "DMO",
    decimalUnits := 18,
    transferEnabled := true,
    tokenFactoryAddress := none,
    isAddress := jsTruthy,
    factoryReceiptAddress := "0xfacfacfacfacfacfacfacfacfacfacfacfacfacf",
    factoryTxHash := "0xhash1",
    tokenReceiptAddress := "0x10c10c10c10c10c10c10c10c10c10c10c10c10c1",
    tokenTxHash := "0xhash2" }

/-- Witness for C8: with a just-deployed factory address in the
context, the token constructor references that address and the token
arguments. -/
theorem c8_token_pipeline_factory_selection_witness :
    miniMeConstructorArgs demoTokenEnv
        { factoryAddress := some "0xfacfacfacfacfacfacfacfacfacfacfacfacfacf",
          factoryTxHash := some "0xhash1", tokenAddress := none, tokenTxHash := none }
      = [DeployArg.address (some "0xfacfacfacfacfacfacfacfacfacfacfacfacfacf"),
         DeployArg.address (some ZERO_ADDRESS), DeployArg.nat 0,
         DeployArg.str demoTokenEnv.tokenName, DeployArg.nat demoTokenEnv.decimalUnits,
         DeployArg.str demoTokenEnv.symbol, DeployArg.flag demoTokenEnv.transferEnabled] :=
  (c8_token_pipeline_factory_selection demoTokenEnv
    { factoryAddress := none, factoryTxHash := some "0xhash1",
      tokenAddress := none, tokenTxHash := none }).2.2.1
    "0xfacfacfacfacfacfacfacfacfacfacfacfacfacf" (by decide)

/-- C9: the install task uses the dao argument verbatim whenever the
unanchored regex test finds a 0x-prefixed 40-hex-digit substring
anywhere in it, resolves it as an ENS domain otherwise, and the test
succeeds exactly when such a substring starts at some position. -/
theorem c9_dao_address_bypass (resolveEns : String → String) (dao : String) :
    (containsEthAddress dao = true → resolveDaoAddress resolveEns dao = dao)
    ∧ (containsEthAddress dao = false → resolveDaoAddress resolveEns dao = resolveEns dao)
    ∧ (containsEthAddress dao = true ↔ ∃ i, ethAddrMatchAt (dao.data.drop i) = true) := by
  refine ⟨fun h => by simp [resolveDaoAddress, h], fun h => by simp [resolveDaoAddress, h], ?_, ?_⟩
  · intro h
    rcases List.any_eq_true.mp
      (show (List.range dao.data.length).any (fun i => ethAddrMatchAt (dao.data.drop i)) = true
        from h) with ⟨i, _, hmi⟩
    exact ⟨i, hmi⟩
  · rintro ⟨i, hi⟩
    have hlen : i < dao.data.length := by
      by_contra hle
      push_neg at hle
      rw [List.drop_eq_nil_of_le hle] at hi
      simp [ethAddrMatchAt] at hi
    exact List.any_eq_true.mpr ⟨i, List.mem_range.mpr hlen, hi⟩

/-- Witness for C9: a dao argument with an embedded 0x-40-hex substring
(surrounded by other text) bypasses ENS resolution entirely. -/
theorem c9_dao_address_bypass_witness :
    resolveDaoAddress (fun s => s ++ ".resolved")
        "abc0x909d05f384d0663ed4be59863815ab43b4f347ecxyz"
      = "abc0x909d05f384d0663ed4be59863815ab43b4f347ecxyz" :=
  (c9_dao_address_bypass (fun s => s ++ ".resolved")
    "abc0x909d05f384d0663ed4be59863815ab43b4f347ecxyz").1 (by decide)

/-- C10: `addressesEqual` lowercases both operands; the mismatch test
of the Checking-installed-version step and the DAO/log-address match of
the Fetching-deployed-app step are case-insensitive, while the
unset-base test is strict string equality with the zero-address
constant — an upper-case variant of the zero address is equal
case-insensitively yet does not make the step skip. -/
theorem c10_address_comparisons :
    (∀ a b, addressesEqual a b = (jsToLower a == jsToLower b))
    ∧ (∀ apmRepo currentBase contractAddress : String,
        (∃ m, checkInstalledVersion apmRepo currentBase contractAddress = Outcome.err m) ↔
          (¬ currentBase = ZERO_ADDRESS ∧ ¬ jsToLower currentBase = jsToLower contractAddress))
    ∧ (∀ (apmRepo currentBase contractAddress r : String),
        checkInstalledVersion apmRepo currentBase contractAddress = Outcome.skip r →
          currentBase = ZERO_ADDRESS)
    ∧ (addressesEqual "0X0000000000000000000000000000000000000000" ZERO_ADDRESS = true
        ∧ ∀ (apmRepo r : String), checkInstalledVersion apmRepo
            "0X0000000000000000000000000000000000000000" ZERO_ADDRESS ≠ Outcome.skip r)
    ∧ (∀ (logTopic dao : String) (l : Log), newAppProxyLogMatch logTopic dao l = true ↔
        (l.topics.head? = some logTopic ∧ jsToLower dao = jsToLower l.address)) := by
  refine ⟨fun a b => rfl, fun apmRepo cb ca => ?_, fun apmRepo cb ca r h => ?_, ⟨by decide, ?_⟩,
    fun logTopic dao l => ?_⟩
  · rcases checkInstalled_err_iff apmRepo cb ca with ⟨h1, h2⟩
    constructor
    · intro h
      rcases h1 h with ⟨hz, he⟩
      exact ⟨hz, by simpa [addressesEqual] using he⟩
    · intro ⟨hz, he⟩
      exact h2 ⟨hz, by simpa [addressesEqual] using he⟩
  · by_cases h0 : cb == ZERO_ADDRESS
    · simpa using h0
    · simp only [checkInstalledVersion, h0, Bool.false_eq_true, if_false] at h
      split at h <;> simp_all
  · intro apmRepo r
    have h0 : ("0X0000000000000000000000000000000000000000" == ZERO_ADDRESS) = false := by decide
    have he : addressesEqual "0X0000000000000000000000000000000000000000" ZERO_ADDRESS = true := by
      decide
    simp [checkInstalledVersion, h0, he]
  · simp [newAppProxyLogMatch, addressesEqual]

/-- Witness for C10: a receipt-log match where the DAO and emitting
addresses differ only by letter case still succeeds. -/
theorem c10_address_comparisons_witness :
    newAppProxyLogMatch "0xproxytopichash" "0xDA0DA0DA0DA0DA0DA0DA0DA0DA0DA0DA0DA0DA00"
        { topics := ["0xproxytopichash"],
          address := "0xda0da0da0da0da0da0da0da0da0da0da0da0da00", data := "0x" }
      = true :=
  (c10_address_comparisons.2.2.2.2 "0xproxytopichash"
    "0xDA0DA0DA0DA0DA0DA0DA0DA0DA0DA0DA0DA0DA00"
    { topics := ["0xproxytopichash"],
      address := "0xda0da0da0da0da0da0da0da0da0da0da0da0da00", data := "0x" }).mpr
    ⟨rfl, rfl⟩

end AragonCli
